import Mathlib

/-!
# Planar primitives of the ray tracer: quad, tri, ellipse, annulus

A shallow embedding of `src/Wk1-2025/quad.h`, `src/Wk1/ray.h` and
`src/Wk1/vec3.h`.

* A `double` is an element of a linearly ordered field `F` (exact arithmetic:
  rounding, infinities and NaN are outside the model).  Every definition is
  computable; at `F := ℚ` it runs.
* `std::sqrt` is the parameter `sqrt : F → F`.  Theorems that need no property
  of the square root hold for every `sqrt`; those that do are stated for
  `F := ℝ` and `sqrt := Real.sqrt`.
* `hit_record& rec` is an in/out parameter: a function that writes to it returns
  the new record next to its `bool`.
* The class hierarchy `quad → tri / ellipse / annulus` is a record of the
  base-class fields together with the dynamic class of the object
  (`shape_class`); a virtual call is a `match` on that class.
* The division in `quad::hit` is a checked division: `none` stands for a
  division by zero.  The divisions of the constructor are the field's own
  (total) division; what is proved of `w` assumes `u`, `v` non-collinear.
-/

namespace RTWeekend

variable {F : Type} [LinearOrderedField F]

/-! ## `src/Wk1/vec3.h` -/

/-- The class `vec3`: `std::array<double, 3> e`, one field per index. The constructor
`vec3(e0, e1, e2)` is `vec3.mk e0 e1 e2`. -/
@[ext]
structure vec3 (F : Type) where
  e0 : F
  e1 : F
  e2 : F
deriving DecidableEq

/-- The alias `point3` of `vec3`. -/
abbrev point3 (F : Type) : Type := vec3 F

namespace vec3

/-- The accessor `double x() const { return e[0]; }`. -/
def x (a : vec3 F) : F := a.e0

/-- The accessor `double y() const { return e[1]; }`. -/
def y (a : vec3 F) : F := a.e1

/-- The accessor `double z() const { return e[1]; }`. -/
def z (a : vec3 F) : F := a.e1

/-- The operator `vec3 operator-() const { return vec3(-e[0], -e[1], -e[2]); }`. -/
def neg (a : vec3 F) : vec3 F := ⟨-a.e0, -a.e1, -a.e2⟩

/-- Modelled from the spec: the vector header that `quad.h` is compiled against is
not among the sources; `a + b` is the componentwise sum of a Vector3. -/
def add (a b : vec3 F) : vec3 F := ⟨a.e0 + b.e0, a.e1 + b.e1, a.e2 + b.e2⟩

/-- Modelled from the spec: the componentwise difference `a - b` of a Vector3. -/
def sub (a b : vec3 F) : vec3 F := ⟨a.e0 - b.e0, a.e1 - b.e1, a.e2 - b.e2⟩

/-- Modelled from the spec: the scaling `t * a` of a Vector3 (as in `t·direction`). -/
def smul (t : F) (a : vec3 F) : vec3 F := ⟨t * a.e0, t * a.e1, t * a.e2⟩

/-- Modelled from the spec: the division `a / t` of a Vector3 by a scalar
(as in `(u×v) / dot(u×v, u×v)`). -/
def sdiv (a : vec3 F) (t : F) : vec3 F := ⟨a.e0 / t, a.e1 / t, a.e2 / t⟩

instance : Neg (vec3 F) := ⟨neg⟩
instance : Add (vec3 F) := ⟨add⟩
instance : Sub (vec3 F) := ⟨sub⟩
instance : HMul F (vec3 F) (vec3 F) := ⟨smul⟩
instance : HDiv (vec3 F) F (vec3 F) := ⟨sdiv⟩

end vec3

/-- Modelled from the spec: the inner product `dot(a, b)`. -/
def dot (a b : vec3 F) : F := a.e0 * b.e0 + a.e1 * b.e1 + a.e2 * b.e2

/-- Modelled from the spec: the vector product `a × b`. -/
def cross (a b : vec3 F) : vec3 F :=
  ⟨a.e1 * b.e2 - a.e2 * b.e1, a.e2 * b.e0 - a.e0 * b.e2, a.e0 * b.e1 - a.e1 * b.e0⟩

/-- Modelled from the spec: `normalize(a)`, the vector divided by its length, the
square root of `dot(a, a)`. -/
def unit_vector (sqrt : F → F) (a : vec3 F) : vec3 F := a / sqrt (dot a a)

/-! ## `src/Wk1/ray.h` -/

/-- The class `ray`: `point3 orig; vec3 dir;`. -/
structure ray (F : Type) where
  orig : point3 F
  dir : vec3 F

namespace ray

/-- The method `point3 origin() const { return this->orig; }`. -/
def origin (r : ray F) : point3 F := r.orig

/-- The method `vec3 direction() const { return this->dir; }`. -/
def direction (r : ray F) : vec3 F := r.dir

/-- The method `point3 at(double t) const { return orig + t * dir; }`. -/
def at_ (r : ray F) (t : F) : point3 F := r.orig + t * r.dir

end ray

/-! ## Interval and axis-aligned box (their headers are not among the sources) -/

/-- Modelled from the spec: Interval, the scalar range `[min, max]`. -/
structure interval (F : Type) where
  min : F
  max : F
deriving DecidableEq

namespace interval

/-- Modelled from the spec: containment of a scalar in the range `[min, max]`. -/
def contains (i : interval F) (x : F) : Bool := decide (i.min ≤ x ∧ x ≤ i.max)

/-- Modelled from the spec: the width of the range. -/
def size (i : interval F) : F := i.max - i.min

/-- Modelled from the spec: the range widened by `delta`, half of it on each side
(the epsilon pad of a box). -/
def expand (i : interval F) (delta : F) : interval F :=
  ⟨i.min - delta / 2, i.max + delta / 2⟩

/-- Modelled from the spec: the union of two ranges, the smallest range around both. -/
def enclose (a b : interval F) : interval F :=
  ⟨if a.min ≤ b.min then a.min else b.min, if a.max ≥ b.max then a.max else b.max⟩

end interval

/-- Modelled from the spec: AxisAlignedBoundingBox, three Intervals, one per axis. -/
structure aabb (F : Type) where
  x : interval F
  y : interval F
  z : interval F
deriving DecidableEq

namespace aabb

/-- Modelled from the spec: the tiny epsilon pad that keeps an axis from having zero
thickness; `delta` is the pad, a constant of the missing header. -/
def pad_to_minimums (delta : F) (b : aabb F) : aabb F :=
  { x := if b.x.size < delta then b.x.expand delta else b.x
    y := if b.y.size < delta then b.y.expand delta else b.y
    z := if b.z.size < delta then b.z.expand delta else b.z }

/-- Modelled from the spec: the constructor `aabb(a, b)`, the box spanned by two
corner points taken in either order, padded. -/
def of_points (delta : F) (a b : point3 F) : aabb F :=
  pad_to_minimums delta
    { x := if a.e0 ≤ b.e0 then ⟨a.e0, b.e0⟩ else ⟨b.e0, a.e0⟩
      y := if a.e1 ≤ b.e1 then ⟨a.e1, b.e1⟩ else ⟨b.e1, a.e1⟩
      z := if a.e2 ≤ b.e2 then ⟨a.e2, b.e2⟩ else ⟨b.e2, a.e2⟩ }

/-- Modelled from the spec: the constructor `aabb(box0, box1)`, the union of two boxes. -/
def of_boxes (box0 box1 : aabb F) : aabb F :=
  { x := interval.enclose box0.x box1.x
    y := interval.enclose box0.y box1.y
    z := interval.enclose box0.z box1.z }

/-- The point `p` lies in the box: each coordinate is contained in the interval of
its axis. -/
def encloses (b : aabb F) (p : point3 F) : Bool :=
  b.x.contains p.e0 && b.y.contains p.e1 && b.z.contains p.e2

end aabb

/-! ## Hit record (`hittable.h` is not among the sources) -/

/-- A `shared_ptr<material>`: the identity of the material it points to. -/
abbrev material : Type := Nat

/-- Modelled from the spec: HitRecord — hit point, surface normal, material reference
(`none` is the null pointer), hit time `t`, surface coordinates `(u, v)` and the
front-face flag. -/
structure hit_record (F : Type) where
  p : point3 F
  normal : vec3 F
  mat : Option material
  t : F
  u : F
  v : F
  front_face : Bool
deriving DecidableEq

/-- Modelled from the spec: `rec.set_face_normal(r, outward_normal)` stores the
front/back-face flag and the normal corrected to point against the ray. -/
def hit_record.set_face_normal (rec : hit_record F) (r : ray F) (outward_normal : vec3 F) :
    hit_record F :=
  let front_face := decide (dot r.direction outward_normal < 0)
  { rec with front_face := front_face
             normal := if front_face then outward_normal else -outward_normal }

/-! ## `src/Wk1-2025/quad.h` -/

/-- The dynamic class of a planar object; `annulus` carries its private member `inner`. -/
inductive shape_class (F : Type) where
  | quad : shape_class F
  | tri : shape_class F
  | ellipse : shape_class F
  | annulus (inner : F) : shape_class F
deriving DecidableEq

/-- The data members of `class quad` (`Q`, `u`, `v`, `w`, `mat`, `bbox`, `normal`, `D`),
inherited by `tri`, `ellipse` and `annulus`, and the dynamic class `cls` of the object. -/
structure quad (F : Type) where
  Q : point3 F
  u : vec3 F
  v : vec3 F
  w : vec3 F
  mat : material
  bbox : aabb F
  normal : vec3 F
  D : F
  cls : shape_class F
deriving DecidableEq

/-- The body of `quad::set_bounding_box` (lines 18-23): the value it assigns to `bbox`. -/
def quad.set_bounding_box (delta : F) (Q : point3 F) (u v : vec3 F) : aabb F :=
  let bbox_diagnol1 := aabb.of_points delta Q (Q + u + v)
  let bbox_diagnol2 := aabb.of_points delta (Q + u) (Q + v)
  aabb.of_boxes bbox_diagnol1 bbox_diagnol2

/-- The body of `ellipse::set_bounding_box` (lines 107-109): the value it assigns to `bbox`. -/
def ellipse.set_bounding_box (delta : F) (Q : point3 F) (u v : vec3 F) : aabb F :=
  aabb.of_points delta (Q - u - v) (Q + u + v)

/-- The body of `annulus::set_bounding_box` (lines 131-133): the value it assigns to `bbox`. -/
def annulus.set_bounding_box (delta : F) (Q : point3 F) (u v : vec3 F) : aabb F :=
  aabb.of_points delta (Q - u - v) (Q + u + v)

/-- The virtual call `set_bounding_box()`: the final overrider for the dynamic class
`dyn` the object has at the moment of the call (`tri` does not override). -/
def set_bounding_box (dyn : shape_class F) (delta : F) (Q : point3 F) (u v : vec3 F) : aabb F :=
  match dyn with
  | .quad => quad.set_bounding_box delta Q u v
  | .tri => quad.set_bounding_box delta Q u v
  | .ellipse => ellipse.set_bounding_box delta Q u v
  | .annulus _ => annulus.set_bounding_box delta Q u v

/-- The constructor `quad::quad(Q, u, v, mat)` (lines 8-16). While a base-class
constructor runs, the object's dynamic class is that base class (C++ [class.cdtor]):
the virtual call `set_bounding_box()` on line 15 is made on an object of class `quad`,
whichever class is being constructed. -/
def quad.ctor (sqrt : F → F) (delta : F) (Q : point3 F) (u v : vec3 F) (mat : material) :
    quad F :=
  let n := cross u v
  let normal := unit_vector sqrt n
  let D := dot normal Q
  let w := n / dot n n
  { Q := Q, u := u, v := v, w := w, mat := mat
    bbox := RTWeekend.set_bounding_box shape_class.quad delta Q u v
    normal := normal, D := D, cls := shape_class.quad }

/-- The constructor `tri::tri(Q, uu, uv, m) : quad(Q, uu, uv, m) {}` (lines 86-87). -/
def tri.ctor (sqrt : F → F) (delta : F) (Q : point3 F) (uu uv : vec3 F) (m : material) :
    quad F :=
  { quad.ctor sqrt delta Q uu uv m with cls := shape_class.tri }

/-- The constructor `ellipse::ellipse(Q, u, v, m) : quad(Q, u, v, m) {}` (lines 102-105). -/
def ellipse.ctor (sqrt : F → F) (delta : F) (Q : point3 F) (u v : vec3 F) (m : material) :
    quad F :=
  { quad.ctor sqrt delta Q u v m with cls := shape_class.ellipse }

/-- The constructor `annulus::annulus(Q, u, v, _inner, m) : quad(Q, u, v, m), inner(_inner) {}`
(lines 127-129). -/
def annulus.ctor (sqrt : F → F) (delta : F) (Q : point3 F) (u v : vec3 F) (_inner : F)
    (m : material) : quad F :=
  { quad.ctor sqrt delta Q u v m with cls := shape_class.annulus _inner }

/-- The method `aabb bounding_box() const override { return bbox; }`. -/
def quad.bounding_box (s : quad F) : aabb F := s.bbox

/-- The method `quad::is_interior` (lines 60-72). -/
def quad.is_interior (a b : F) (rec : hit_record F) : Bool × hit_record F :=
  let unit_interval : interval F := ⟨0, 1⟩
  if !unit_interval.contains a || !unit_interval.contains b then
    (false, rec)
  else
    (true, { rec with u := a, v := b })

/-- The method `tri::is_interior` (lines 89-97). -/
def tri.is_interior (a b : F) (rec : hit_record F) : Bool × hit_record F :=
  if a < 0 ∨ b < 0 ∨ a + b > 1 then
    (false, rec)
  else
    (true, { rec with u := a, v := b })

/-- The method `ellipse::is_interior` (lines 111-122). -/
def ellipse.is_interior (a b : F) (rec : hit_record F) : Bool × hit_record F :=
  if a * a + b * b > 1 then
    (false, rec)
  else
    (true, { rec with u := a / 2 + 1 / 2, v := b / 2 + 1 / 2 })

/-- The method `annulus::is_interior` (lines 135-146). -/
def annulus.is_interior (sqrt : F → F) (inner : F) (a b : F) (rec : hit_record F) :
    Bool × hit_record F :=
  let center_dist := sqrt (a * a + b * b)
  if center_dist < inner ∨ center_dist > 1 then
    (false, rec)
  else
    (true, { rec with u := a / 2 + 1 / 2, v := b / 2 + 1 / 2 })

/-- The virtual call `is_interior(a, b, rec)` on the object `s`. -/
def is_interior (sqrt : F → F) (s : quad F) (a b : F) (rec : hit_record F) :
    Bool × hit_record F :=
  match s.cls with
  | .quad => quad.is_interior a b rec
  | .tri => tri.is_interior a b rec
  | .ellipse => ellipse.is_interior a b rec
  | .annulus inner => annulus.is_interior sqrt inner a b rec

/-- A division of doubles that reports a zero denominator: `none` is the division by zero. -/
def checked_div (x y : F) : Option F := if y = 0 then none else some (x / y)

/-- The plane coordinates of lines 43-45 of `quad::hit`:
`alpha = dot(w, cross(planar_hitpt_vector, v))`, `beta = dot(w, cross(u, planar_hitpt_vector))`
with `planar_hitpt_vector = intersection - Q`. -/
def quad.plane_coords (s : quad F) (intersection : point3 F) : F × F :=
  let planar_hitpt_vector := intersection - s.Q
  let alpha := dot s.w (cross planar_hitpt_vector s.v)
  let beta := dot s.w (cross s.u planar_hitpt_vector)
  (alpha, beta)

/-- The method `quad::hit(r, ray_t, rec)` (lines 27-58), inherited by every planar shape.
The result is `none` when the division on line 36 has a zero denominator, otherwise the
returned `bool` and the record as the call leaves it. -/
def quad.hit (sqrt : F → F) (s : quad F) (r : ray F) (ray_t : interval F) (rec : hit_record F) :
    Option (Bool × hit_record F) :=
  let denom := dot s.normal r.direction
  if |denom| < 1 / 100000000 then
    some (false, rec)
  else
    match checked_div (s.D - dot s.normal r.origin) denom with
    | none => none
    | some t =>
      if !ray_t.contains t then
        some (false, rec)
      else
        let intersection := r.at_ t
        let (alpha, beta) := s.plane_coords intersection
        match RTWeekend.is_interior sqrt s alpha beta rec with
        | (false, rec1) => some (false, rec1)
        | (true, rec1) =>
          let rec2 := { rec1 with t := t, p := intersection, mat := some s.mat }
          some (true, rec2.set_face_normal r s.normal)

/-- A hit record before any call has written to it: every field zero, no material. -/
def hit_record.blank (F : Type) [LinearOrderedField F] : hit_record F :=
  ⟨⟨0, 0, 0⟩, ⟨0, 0, 0⟩, none, 0, 0, 0, false⟩

/-! ## Componentwise reading of the vector operations -/

@[simp]
theorem vec3.add_e0 (a b : vec3 F) : (a + b).e0 = a.e0 + b.e0 := rfl
@[simp]
theorem vec3.add_e1 (a b : vec3 F) : (a + b).e1 = a.e1 + b.e1 := rfl
@[simp]
theorem vec3.add_e2 (a b : vec3 F) : (a + b).e2 = a.e2 + b.e2 := rfl
@[simp]
theorem vec3.sub_e0 (a b : vec3 F) : (a - b).e0 = a.e0 - b.e0 := rfl
@[simp]
theorem vec3.sub_e1 (a b : vec3 F) : (a - b).e1 = a.e1 - b.e1 := rfl
@[simp]
theorem vec3.sub_e2 (a b : vec3 F) : (a - b).e2 = a.e2 - b.e2 := rfl
@[simp]
theorem vec3.neg_e0 (a : vec3 F) : (-a).e0 = -a.e0 := rfl
@[simp]
theorem vec3.neg_e1 (a : vec3 F) : (-a).e1 = -a.e1 := rfl
@[simp]
theorem vec3.neg_e2 (a : vec3 F) : (-a).e2 = -a.e2 := rfl
@[simp]
theorem vec3.smul_e0 (t : F) (a : vec3 F) : (t * a).e0 = t * a.e0 := rfl
@[simp]
theorem vec3.smul_e1 (t : F) (a : vec3 F) : (t * a).e1 = t * a.e1 := rfl
@[simp]
theorem vec3.smul_e2 (t : F) (a : vec3 F) : (t * a).e2 = t * a.e2 := rfl
@[simp]
theorem vec3.sdiv_e0 (a : vec3 F) (t : F) : (a / t).e0 = a.e0 / t := rfl
@[simp]
theorem vec3.sdiv_e1 (a : vec3 F) (t : F) : (a / t).e1 = a.e1 / t := rfl
@[simp]
theorem vec3.sdiv_e2 (a : vec3 F) (t : F) : (a / t).e2 = a.e2 / t := rfl

/-! ## What each interior test computes -/

theorem quad_is_interior_eq (a b : F) (rec : hit_record F) :
    quad.is_interior a b rec =
      if 0 ≤ a ∧ a ≤ 1 ∧ 0 ≤ b ∧ b ≤ 1 then (true, { rec with u := a, v := b })
      else (false, rec) := by
  simp only [quad.is_interior, interval.contains]
  by_cases h : 0 ≤ a ∧ a ≤ 1 ∧ 0 ≤ b ∧ b ≤ 1
  · obtain ⟨h1, h2, h3, h4⟩ := h
    simp [h1, h2, h3, h4]
  · rw [if_neg h]
    simp only [Bool.not_eq_true', Bool.or_eq_true, decide_eq_false_iff_not]
    rw [if_pos]
    by_contra k
    exact h ⟨(not_not.1 (fun x => k (Or.inl x))).1, (not_not.1 (fun x => k (Or.inl x))).2,
      (not_not.1 (fun x => k (Or.inr x))).1, (not_not.1 (fun x => k (Or.inr x))).2⟩

theorem tri_is_interior_eq (a b : F) (rec : hit_record F) :
    tri.is_interior a b rec =
      if 0 ≤ a ∧ 0 ≤ b ∧ a + b ≤ 1 then (true, { rec with u := a, v := b })
      else (false, rec) := by
  simp only [tri.is_interior]
  by_cases h : 0 ≤ a ∧ 0 ≤ b ∧ a + b ≤ 1
  · rw [if_neg, if_pos h]
    rintro (k | k | k)
    · exact absurd h.1 (not_le.2 k)
    · exact absurd h.2.1 (not_le.2 k)
    · exact absurd h.2.2 (not_le.2 k)
  · rw [if_neg h, if_pos]
    by_contra k
    exact h ⟨not_lt.1 (fun x => k (Or.inl x)), not_lt.1 (fun x => k (Or.inr (Or.inl x))),
      not_lt.1 (fun x => k (Or.inr (Or.inr x)))⟩

theorem ellipse_is_interior_eq (a b : F) (rec : hit_record F) :
    ellipse.is_interior a b rec =
      if a * a + b * b ≤ 1 then (true, { rec with u := a / 2 + 1 / 2, v := b / 2 + 1 / 2 })
      else (false, rec) := by
  simp only [ellipse.is_interior]
  by_cases h : a * a + b * b ≤ 1
  · rw [if_neg (not_lt.2 h), if_pos h]
  · rw [if_pos (not_le.1 h), if_neg h]

theorem annulus_is_interior_eq (sqrt : F → F) (inner a b : F) (rec : hit_record F) :
    annulus.is_interior sqrt inner a b rec =
      if inner ≤ sqrt (a * a + b * b) ∧ sqrt (a * a + b * b) ≤ 1 then
        (true, { rec with u := a / 2 + 1 / 2, v := b / 2 + 1 / 2 })
      else (false, rec) := by
  simp only [annulus.is_interior]
  by_cases h : inner ≤ sqrt (a * a + b * b) ∧ sqrt (a * a + b * b) ≤ 1
  · rw [if_pos h, if_neg]
    rintro (k | k)
    · exact absurd h.1 (not_le.2 k)
    · exact absurd h.2 (not_le.2 k)
  · rw [if_neg h, if_pos]
    by_contra k
    exact h ⟨not_lt.1 (fun x => k (Or.inl x)), not_lt.1 (fun x => k (Or.inr x))⟩

/-! ## The paths through `quad::hit` -/

/-- A call of `hit` that returns `true` went through every test: the ray is not parallel,
`t` is in range, the interior test accepted, and the record is the one the interior test
left with `t`, `p`, `mat` and the face normal stored. -/
theorem hit_true_inv (sqrt : F → F) (s : quad F) (r : ray F) (ray_t : interval F)
    (rec res : hit_record F) (h : quad.hit sqrt s r ray_t rec = some (true, res)) :
    ∃ (t : F) (rec1 : hit_record F),
      ¬ |dot s.normal r.direction| < 1 / 100000000 ∧
      t = (s.D - dot s.normal r.origin) / dot s.normal r.direction ∧
      ray_t.contains t = true ∧
      is_interior sqrt s (s.plane_coords (r.at_ t)).1 (s.plane_coords (r.at_ t)).2 rec
        = (true, rec1) ∧
      res = hit_record.set_face_normal
        { rec1 with t := t, p := r.at_ t, mat := some s.mat } r s.normal := by
  unfold quad.hit at h
  simp only at h
  split_ifs at h with h1
  · simp at h
  unfold checked_div at h
  split_ifs at h with h2
  simp only at h
  split_ifs at h with h3
  · simp at h
  generalize hi : is_interior sqrt s
    (s.plane_coords (r.at_ ((s.D - dot s.normal r.origin) / dot s.normal r.direction))).1
    (s.plane_coords (r.at_ ((s.D - dot s.normal r.origin) / dot s.normal r.direction))).2 rec
    = out at h
  obtain ⟨ok, rec1⟩ := out
  cases ok
  · simp at h
  · simp only [Option.some.injEq, Prod.mk.injEq, true_and] at h
    refine ⟨_, rec1, h1, rfl, ?_, hi, h.symm⟩
    simpa using h3

/-- The denominator of line 36 is not zero once the test of line 31 has been passed. -/
theorem denom_ne_zero_of_not_parallel (d : F) (h : ¬ |d| < 1 / 100000000) : d ≠ 0 := by
  intro h0
  apply h
  rw [h0, abs_zero]
  norm_num

/-! ## Shapes and rays of the scenes in `src/Wk1-2025/inoneweekend.cpp` -/

theorem sqrt_256 : Real.sqrt 256 = 16 := by
  rw [show (256 : ℝ) = 16 ^ 2 by norm_num]
  exact Real.sqrt_sq (by norm_num)

theorem sqrt_16 : Real.sqrt 16 = 4 := by
  rw [show (16 : ℝ) = 4 ^ 2 by norm_num]
  exact Real.sqrt_sq (by norm_num)

theorem sqrt_4 : Real.sqrt 4 = 2 := by
  rw [show (4 : ℝ) = 2 ^ 2 by norm_num]
  exact Real.sqrt_sq (by norm_num)

/-- The quad `quad(point3(-2,-2, 0), vec3(4, 0, 0), vec3(0, 4, 0), back_green)` of the scene
`quads()` is hit at `t = 9`, in its centre, by the ray from `(0,0,9)` along `(0,0,-1)`. -/
theorem back_quad_hit :
    quad.hit Real.sqrt (quad.ctor Real.sqrt (1 / 10000) ⟨-2, -2, 0⟩ ⟨4, 0, 0⟩ ⟨0, 4, 0⟩ 1)
        ⟨⟨0, 0, 9⟩, ⟨0, 0, -1⟩⟩ ⟨1 / 1000, 1000⟩ (hit_record.blank ℝ)
      = some (true, ⟨⟨0, 0, 0⟩, ⟨0, 0, 1⟩, some 1, 9, 1 / 2, 1 / 2, true⟩) := by
  norm_num [quad.hit, quad.ctor, unit_vector, dot, cross, sqrt_256, checked_div, ray.direction,
    ray.origin, ray.at_, interval.contains, quad.plane_coords, is_interior, quad.is_interior,
    hit_record.set_face_normal, hit_record.blank, abs_lt, vec3.ext_iff]

/-- The annulus `annulus(point3(0, 0, 0), vec3(2, 0, 0), vec3(0, 2, 0), 0.2, back_green)` of the
scene `annuli()` is hit at `t = 9`, half way out along `u`, by the ray from `(1,0,9)` along
`(0,0,-1)`. -/
theorem back_annulus_hit :
    quad.hit Real.sqrt
        (annulus.ctor Real.sqrt (1 / 10000) ⟨0, 0, 0⟩ ⟨2, 0, 0⟩ ⟨0, 2, 0⟩ (1 / 5) 1)
        ⟨⟨1, 0, 9⟩, ⟨0, 0, -1⟩⟩ ⟨1 / 1000, 1000⟩ (hit_record.blank ℝ)
      = some (true, ⟨⟨1, 0, 0⟩, ⟨0, 0, 1⟩, some 1, 9, 3 / 4, 1 / 2, true⟩) := by
  norm_num [quad.hit, annulus.ctor, quad.ctor, unit_vector, dot, cross, sqrt_16, checked_div,
    ray.direction, ray.origin, ray.at_, interval.contains, quad.plane_coords, is_interior,
    annulus.is_interior, hit_record.set_face_normal, hit_record.blank, abs_lt, vec3.ext_iff, sqrt_4]

/-! ## C2 -/

/-- C2. For every ray `r`, every interval `ray_t` and every planar shape `s` (quad, tri,
ellipse or annulus, whatever its fields): when `hit(r, ray_t, rec)` returns true, the
recorded `rec.t` is contained in `ray_t` and the recorded `rec.p` is `r.at(rec.t)`, which is
`r.origin() + rec.t * r.direction()`. -/
theorem hit_t_in_range_and_p_on_ray {F : Type} [LinearOrderedField F] (sqrt : F → F)
    (s : quad F) (r : ray F) (ray_t : interval F) (rec res : hit_record F)
    (h : quad.hit sqrt s r ray_t rec = some (true, res)) :
    ray_t.contains res.t = true ∧ res.p = r.at_ res.t ∧
      r.at_ res.t = r.origin + res.t * r.direction := by
  obtain ⟨t, rec1, -, -, ht, -, hres⟩ := hit_true_inv sqrt s r ray_t rec res h
  subst hres
  exact ⟨ht, rfl, rfl⟩

/-- The hit of `back_quad_hit`: `t = 9` lies in `[0.001, 1000]` and `p = (0,0,0)` is the
point of the ray at `t = 9`. -/
theorem hit_t_in_range_and_p_on_ray_witness :
    quad.hit Real.sqrt (quad.ctor Real.sqrt (1 / 10000) ⟨-2, -2, 0⟩ ⟨4, 0, 0⟩ ⟨0, 4, 0⟩ 1)
        ⟨⟨0, 0, 9⟩, ⟨0, 0, -1⟩⟩ ⟨1 / 1000, 1000⟩ (hit_record.blank ℝ)
      = some (true, ⟨⟨0, 0, 0⟩, ⟨0, 0, 1⟩, some 1, 9, 1 / 2, 1 / 2, true⟩) ∧
    ((interval.mk (1 / 1000 : ℝ) 1000).contains 9 = true ∧
      (⟨0, 0, 0⟩ : point3 ℝ) = (ray.mk ⟨0, 0, 9⟩ ⟨0, 0, -1⟩ : ray ℝ).at_ 9 ∧
      (ray.mk ⟨0, 0, 9⟩ ⟨0, 0, -1⟩ : ray ℝ).at_ 9
        = (ray.mk ⟨0, 0, 9⟩ ⟨0, 0, -1⟩ : ray ℝ).origin
          + (9 : ℝ) * (ray.mk ⟨0, 0, 9⟩ ⟨0, 0, -1⟩ : ray ℝ).direction) :=
  ⟨back_quad_hit,
    hit_t_in_range_and_p_on_ray Real.sqrt
      (quad.ctor Real.sqrt (1 / 10000) ⟨-2, -2, 0⟩ ⟨4, 0, 0⟩ ⟨0, 4, 0⟩ 1)
      ⟨⟨0, 0, 9⟩, ⟨0, 0, -1⟩⟩ ⟨1 / 1000, 1000⟩ (hit_record.blank ℝ)
      ⟨⟨0, 0, 0⟩, ⟨0, 0, 1⟩, some 1, 9, 1 / 2, 1 / 2, true⟩ back_quad_hit⟩

/-! ## C8 -/

/-- C8. For every planar shape and every ray with `|dot(normal, direction)| < 1e-8`, `hit`
returns false (and leaves the record as it was) for every interval; and no call of `hit`
divides by zero: the checked division of line 36 never reports a zero denominator. -/
theorem hit_parallel_false_and_no_zero_division {F : Type} [LinearOrderedField F]
    (sqrt : F → F) (s : quad F) (r : ray F) (ray_t : interval F) (rec : hit_record F) :
    (|dot s.normal r.direction| < 1 / 100000000 →
        quad.hit sqrt s r ray_t rec = some (false, rec)) ∧
      quad.hit sqrt s r ray_t rec ≠ none := by
  constructor
  · intro h
    unfold quad.hit
    simp only
    rw [if_pos h]
  · unfold quad.hit
    simp only
    split_ifs with h1
    · simp
    · unfold checked_div
      rw [if_neg (denom_ne_zero_of_not_parallel _ h1)]
      simp only
      split_ifs with h3
      · simp
      · generalize is_interior sqrt s _ _ rec = out
        obtain ⟨ok, rec1⟩ := out
        cases ok <;> simp

/-- The ray from `(0,0,9)` along `(1,0,0)` is parallel to the back quad of `quads()`:
`hit` returns false and the record is untouched. -/
theorem hit_parallel_false_witness :
    |dot (quad.ctor Real.sqrt (1 / 10000) ⟨-2, -2, 0⟩ ⟨4, 0, 0⟩ ⟨0, 4, 0⟩ 1).normal
        (ray.mk ⟨0, 0, 9⟩ ⟨1, 0, 0⟩ : ray ℝ).direction| < 1 / 100000000 ∧
    quad.hit Real.sqrt (quad.ctor Real.sqrt (1 / 10000) ⟨-2, -2, 0⟩ ⟨4, 0, 0⟩ ⟨0, 4, 0⟩ 1)
        ⟨⟨0, 0, 9⟩, ⟨1, 0, 0⟩⟩ ⟨1 / 1000, 1000⟩ (hit_record.blank ℝ)
      = some (false, hit_record.blank ℝ) :=
  ⟨by norm_num [quad.ctor, unit_vector, dot, cross, ray.direction],
    (hit_parallel_false_and_no_zero_division Real.sqrt
      (quad.ctor Real.sqrt (1 / 10000) ⟨-2, -2, 0⟩ ⟨4, 0, 0⟩ ⟨0, 4, 0⟩ 1)
      ⟨⟨0, 0, 9⟩, ⟨1, 0, 0⟩⟩ ⟨1 / 1000, 1000⟩ (hit_record.blank ℝ)).1
      (by norm_num [quad.ctor, unit_vector, dot, cross, ray.direction])⟩

/-! ## C6 -/

/-- C6. For all plane coordinates `(a, b)` and every record, the interior test of a
constructed shape accepts exactly under the interior condition of its class - quad iff
`0 <= a <= 1` and `0 <= b <= 1`; tri iff `a >= 0`, `b >= 0` and `a + b <= 1`; ellipse iff
`a*a + b*b <= 1`; annulus iff `inner <= sqrt(a*a + b*b) <= 1` - and on acceptance the record
it leaves is the given one with `(u, v)` set to `(a, b)` for quad and tri and to
`(a/2 + 0.5, b/2 + 0.5)` for ellipse and annulus. -/
theorem is_interior_accepts_iff {F : Type} [LinearOrderedField F] (sqrt : F → F) (delta : F)
    (Q : point3 F) (u v : vec3 F) (inner : F) (m : material) (a b : F) (rec : hit_record F) :
    (((is_interior sqrt (quad.ctor sqrt delta Q u v m) a b rec).1 = true ↔
        (0 ≤ a ∧ a ≤ 1) ∧ (0 ≤ b ∧ b ≤ 1)) ∧
      ((is_interior sqrt (quad.ctor sqrt delta Q u v m) a b rec).1 = true →
        (is_interior sqrt (quad.ctor sqrt delta Q u v m) a b rec).2
          = { rec with u := a, v := b })) ∧
    (((is_interior sqrt (tri.ctor sqrt delta Q u v m) a b rec).1 = true ↔
        a ≥ 0 ∧ b ≥ 0 ∧ a + b ≤ 1) ∧
      ((is_interior sqrt (tri.ctor sqrt delta Q u v m) a b rec).1 = true →
        (is_interior sqrt (tri.ctor sqrt delta Q u v m) a b rec).2
          = { rec with u := a, v := b })) ∧
    (((is_interior sqrt (ellipse.ctor sqrt delta Q u v m) a b rec).1 = true ↔
        a * a + b * b ≤ 1) ∧
      ((is_interior sqrt (ellipse.ctor sqrt delta Q u v m) a b rec).1 = true →
        (is_interior sqrt (ellipse.ctor sqrt delta Q u v m) a b rec).2
          = { rec with u := a / 2 + 1 / 2, v := b / 2 + 1 / 2 })) ∧
    (((is_interior sqrt (annulus.ctor sqrt delta Q u v inner m) a b rec).1 = true ↔
        inner ≤ sqrt (a * a + b * b) ∧ sqrt (a * a + b * b) ≤ 1) ∧
      ((is_interior sqrt (annulus.ctor sqrt delta Q u v inner m) a b rec).1 = true →
        (is_interior sqrt (annulus.ctor sqrt delta Q u v inner m) a b rec).2
          = { rec with u := a / 2 + 1 / 2, v := b / 2 + 1 / 2 })) := by
  refine ⟨?_, ?_, ?_, ?_⟩
  · have e : is_interior sqrt (quad.ctor sqrt delta Q u v m) a b rec
        = quad.is_interior a b rec := rfl
    rw [e, quad_is_interior_eq]
    by_cases h : 0 ≤ a ∧ a ≤ 1 ∧ 0 ≤ b ∧ b ≤ 1
    · rw [if_pos h]
      exact ⟨⟨fun _ => ⟨⟨h.1, h.2.1⟩, h.2.2.1, h.2.2.2⟩, fun _ => rfl⟩, fun _ => rfl⟩
    · rw [if_neg h]
      exact ⟨⟨fun k => Bool.noConfusion k,
        fun k => absurd ⟨k.1.1, k.1.2, k.2.1, k.2.2⟩ h⟩, fun k => Bool.noConfusion k⟩
  · have e : is_interior sqrt (tri.ctor sqrt delta Q u v m) a b rec
        = tri.is_interior a b rec := rfl
    rw [e, tri_is_interior_eq]
    by_cases h : 0 ≤ a ∧ 0 ≤ b ∧ a + b ≤ 1
    · rw [if_pos h]
      exact ⟨⟨fun _ => h, fun _ => rfl⟩, fun _ => rfl⟩
    · rw [if_neg h]
      exact ⟨⟨fun k => Bool.noConfusion k, fun k => absurd k h⟩, fun k => Bool.noConfusion k⟩
  · have e : is_interior sqrt (ellipse.ctor sqrt delta Q u v m) a b rec
        = ellipse.is_interior a b rec := rfl
    rw [e, ellipse_is_interior_eq]
    by_cases h : a * a + b * b ≤ 1
    · rw [if_pos h]
      exact ⟨⟨fun _ => h, fun _ => rfl⟩, fun _ => rfl⟩
    · rw [if_neg h]
      exact ⟨⟨fun k => Bool.noConfusion k, fun k => absurd k h⟩, fun k => Bool.noConfusion k⟩
  · have e : is_interior sqrt (annulus.ctor sqrt delta Q u v inner m) a b rec
        = annulus.is_interior sqrt inner a b rec := rfl
    rw [e, annulus_is_interior_eq]
    by_cases h : inner ≤ sqrt (a * a + b * b) ∧ sqrt (a * a + b * b) ≤ 1
    · rw [if_pos h]
      exact ⟨⟨fun _ => h, fun _ => rfl⟩, fun _ => rfl⟩
    · rw [if_neg h]
      exact ⟨⟨fun k => Bool.noConfusion k, fun k => absurd k h⟩, fun k => Bool.noConfusion k⟩

/-! ## C7 -/

/-- An accepted pair of plane coordinates is mapped into the unit square, for every class
of shape, as soon as the square root sends nothing above 1 to a value at most 1. -/
theorem is_interior_true_uv {F : Type} [LinearOrderedField F] (sqrt : F → F)
    (hs : ∀ x : F, sqrt x ≤ 1 → x ≤ 1) (s : quad F) (a b : F) (rec rec1 : hit_record F)
    (h : is_interior sqrt s a b rec = (true, rec1)) :
    (0 ≤ rec1.u ∧ rec1.u ≤ 1) ∧ (0 ≤ rec1.v ∧ rec1.v ≤ 1) := by
  unfold is_interior at h
  cases hc : s.cls with
  | quad =>
    rw [hc] at h
    simp only at h
    rw [quad_is_interior_eq] at h
    split_ifs at h with k
    · obtain ⟨-, h2⟩ := Prod.mk.inj h
      subst h2
      exact ⟨⟨k.1, k.2.1⟩, k.2.2.1, k.2.2.2⟩
    · exact absurd (Prod.mk.inj h).1 (by decide)
  | tri =>
    rw [hc] at h
    simp only at h
    rw [tri_is_interior_eq] at h
    split_ifs at h with k
    · obtain ⟨-, h2⟩ := Prod.mk.inj h
      subst h2
      obtain ⟨k1, k2, k3⟩ := k
      exact ⟨⟨k1, by linarith⟩, k2, by linarith⟩
    · exact absurd (Prod.mk.inj h).1 (by decide)
  | ellipse =>
    rw [hc] at h
    simp only at h
    rw [ellipse_is_interior_eq] at h
    split_ifs at h with k
    · obtain ⟨-, h2⟩ := Prod.mk.inj h
      subst h2
      have ha : a * a ≤ 1 := by nlinarith [mul_self_nonneg b]
      have hb : b * b ≤ 1 := by nlinarith [mul_self_nonneg a]
      have ha' := abs_le.1 (abs_le_one_iff_mul_self_le_one.2 ha)
      have hb' := abs_le.1 (abs_le_one_iff_mul_self_le_one.2 hb)
      exact ⟨⟨by show 0 ≤ a / 2 + 1 / 2; linarith [ha'.1], by show a / 2 + 1 / 2 ≤ 1; linarith [ha'.2]⟩,
        by show 0 ≤ b / 2 + 1 / 2; linarith [hb'.1], by show b / 2 + 1 / 2 ≤ 1; linarith [hb'.2]⟩
    · exact absurd (Prod.mk.inj h).1 (by decide)
  | annulus inner =>
    rw [hc] at h
    simp only at h
    rw [annulus_is_interior_eq] at h
    split_ifs at h with k
    · obtain ⟨-, h2⟩ := Prod.mk.inj h
      subst h2
      have k' := hs _ k.2
      have ha : a * a ≤ 1 := by nlinarith [mul_self_nonneg b]
      have hb : b * b ≤ 1 := by nlinarith [mul_self_nonneg a]
      have ha' := abs_le.1 (abs_le_one_iff_mul_self_le_one.2 ha)
      have hb' := abs_le.1 (abs_le_one_iff_mul_self_le_one.2 hb)
      exact ⟨⟨by show 0 ≤ a / 2 + 1 / 2; linarith [ha'.1], by show a / 2 + 1 / 2 ≤ 1; linarith [ha'.2]⟩,
        by show 0 ≤ b / 2 + 1 / 2; linarith [hb'.1], by show b / 2 + 1 / 2 ≤ 1; linarith [hb'.2]⟩
    · exact absurd (Prod.mk.inj h).1 (by decide)

/-- The real square root of a number above 1 is above 1. -/
theorem real_sqrt_le_one (x : ℝ) (h : Real.sqrt x ≤ 1) : x ≤ 1 := by
  have := (Real.sqrt_le_iff.1 h).2
  simpa using this

/-- C7. Over the reals, with `std::sqrt` the real square root: for every ray, every interval
and every planar shape (quad, tri, ellipse, annulus - for an annulus whatever its `inner`,
so in particular for `0 <= inner`), whenever `hit` returns true the recorded surface
coordinates satisfy `0 <= rec.u <= 1` and `0 <= rec.v <= 1`. -/
theorem hit_uv_in_unit_square (s : quad ℝ) (r : ray ℝ) (ray_t : interval ℝ)
    (rec res : hit_record ℝ) (h : quad.hit Real.sqrt s r ray_t rec = some (true, res)) :
    (0 ≤ res.u ∧ res.u ≤ 1) ∧ (0 ≤ res.v ∧ res.v ≤ 1) := by
  obtain ⟨t, rec1, -, -, -, hi, hres⟩ := hit_true_inv Real.sqrt s r ray_t rec res h
  subst hres
  exact is_interior_true_uv Real.sqrt real_sqrt_le_one s _ _ rec rec1 hi

/-- The hit of `back_annulus_hit` records `(u, v) = (3/4, 1/2)`, inside the unit square. -/
theorem hit_uv_in_unit_square_witness :
    quad.hit Real.sqrt
        (annulus.ctor Real.sqrt (1 / 10000) ⟨0, 0, 0⟩ ⟨2, 0, 0⟩ ⟨0, 2, 0⟩ (1 / 5) 1)
        ⟨⟨1, 0, 9⟩, ⟨0, 0, -1⟩⟩ ⟨1 / 1000, 1000⟩ (hit_record.blank ℝ)
      = some (true, ⟨⟨1, 0, 0⟩, ⟨0, 0, 1⟩, some 1, 9, 3 / 4, 1 / 2, true⟩) ∧
    (((0 : ℝ) ≤ 3 / 4 ∧ (3 / 4 : ℝ) ≤ 1) ∧ ((0 : ℝ) ≤ 1 / 2 ∧ (1 / 2 : ℝ) ≤ 1)) :=
  ⟨back_annulus_hit,
    hit_uv_in_unit_square
      (annulus.ctor Real.sqrt (1 / 10000) ⟨0, 0, 0⟩ ⟨2, 0, 0⟩ ⟨0, 2, 0⟩ (1 / 5) 1)
      ⟨⟨1, 0, 9⟩, ⟨0, 0, -1⟩⟩ ⟨1 / 1000, 1000⟩ (hit_record.blank ℝ)
      ⟨⟨1, 0, 0⟩, ⟨0, 0, 1⟩, some 1, 9, 3 / 4, 1 / 2, true⟩ back_annulus_hit⟩

/-! ## C9 -/

/-- A vector with `dot(n, n) = 0` is the zero vector. -/
theorem dot_self_ne_zero {F : Type} [LinearOrderedField F] (n : vec3 F)
    (h : n ≠ ⟨0, 0, 0⟩) : dot n n ≠ 0 := by
  intro h0
  apply h
  unfold dot at h0
  have h1 : n.e0 * n.e0 = 0 := by
    nlinarith [mul_self_nonneg n.e0, mul_self_nonneg n.e1, mul_self_nonneg n.e2]
  have h2 : n.e1 * n.e1 = 0 := by
    nlinarith [mul_self_nonneg n.e0, mul_self_nonneg n.e1, mul_self_nonneg n.e2]
  have h3 : n.e2 * n.e2 = 0 := by
    nlinarith [mul_self_nonneg n.e0, mul_self_nonneg n.e1, mul_self_nonneg n.e2]
  exact vec3.ext (mul_self_eq_zero.1 h1) (mul_self_eq_zero.1 h2) (mul_self_eq_zero.1 h3)

/-- C9. For every `Q` and all non-collinear `u`, `v` (`cross(u, v)` is not the zero vector),
the constructor sets `w = cross(u, v) / dot(cross(u, v), cross(u, v))`, and for every point
`P = Q + a*u + b*v` of the plane the coordinates computed in `hit`,
`alpha = dot(w, cross(P - Q, v))` and `beta = dot(w, cross(u, P - Q))`, are `a` and `b`. -/
theorem plane_coords_of_plane_point {F : Type} [LinearOrderedField F] (sqrt : F → F)
    (delta : F) (Q : point3 F) (u v : vec3 F) (m : material) (a b : F)
    (h : cross u v ≠ ⟨0, 0, 0⟩) :
    (quad.ctor sqrt delta Q u v m).w = cross u v / dot (cross u v) (cross u v) ∧
      (quad.ctor sqrt delta Q u v m).plane_coords (Q + a * u + b * v) = (a, b) := by
  refine ⟨rfl, ?_⟩
  have hn := dot_self_ne_zero (cross u v) h
  simp only [dot, cross] at hn
  simp only [quad.plane_coords, quad.ctor, dot, cross, vec3.add_e0, vec3.add_e1, vec3.add_e2,
    vec3.sub_e0, vec3.sub_e1, vec3.sub_e2, vec3.smul_e0, vec3.smul_e1, vec3.smul_e2,
    vec3.sdiv_e0, vec3.sdiv_e1, vec3.sdiv_e2, Prod.mk.injEq]
  constructor
  · field_simp
    ring
  · field_simp
    ring

/-- The back quad of `quads()`: `cross(u, v) = (0, 0, 16)` is not zero, and the point
`Q + (1/4) u + (3/4) v` has plane coordinates `(1/4, 3/4)`. -/
theorem plane_coords_of_plane_point_witness :
    cross (⟨4, 0, 0⟩ : vec3 ℝ) ⟨0, 4, 0⟩ ≠ ⟨0, 0, 0⟩ ∧
    ((quad.ctor Real.sqrt (1 / 10000) ⟨-2, -2, 0⟩ ⟨4, 0, 0⟩ ⟨0, 4, 0⟩ 1).w
        = cross (⟨4, 0, 0⟩ : vec3 ℝ) ⟨0, 4, 0⟩
          / dot (cross (⟨4, 0, 0⟩ : vec3 ℝ) ⟨0, 4, 0⟩) (cross (⟨4, 0, 0⟩ : vec3 ℝ) ⟨0, 4, 0⟩) ∧
      (quad.ctor Real.sqrt (1 / 10000) ⟨-2, -2, 0⟩ ⟨4, 0, 0⟩ ⟨0, 4, 0⟩ 1).plane_coords
          ((⟨-2, -2, 0⟩ : point3 ℝ) + (1 / 4 : ℝ) * (⟨4, 0, 0⟩ : vec3 ℝ)
            + (3 / 4 : ℝ) * (⟨0, 4, 0⟩ : vec3 ℝ))
        = (1 / 4, 3 / 4)) :=
  ⟨by norm_num [cross],
    plane_coords_of_plane_point Real.sqrt (1 / 10000) ⟨-2, -2, 0⟩ ⟨4, 0, 0⟩ ⟨0, 4, 0⟩ 1
      (1 / 4) (3 / 4) (by norm_num [cross])⟩

/-! ## C3 -/

/-- C3, as stated, fails: the annulus
`annulus(point3(0, 0, 0), vec3(2, 0, 0), vec3(0, 2, 0), 0.2, back_green)` of the scene
`annuli()` rejects its own centre, the plane coordinates `(0, 0)`: the distance `0` from the
centre is below `inner = 0.2`. -/
theorem annulus_center_rejected :
    (is_interior Real.sqrt
        (annulus.ctor Real.sqrt (1 / 10000) ⟨0, 0, 0⟩ ⟨2, 0, 0⟩ ⟨0, 2, 0⟩ (1 / 5) 1)
        0 0 (hit_record.blank ℝ)).1 = false := by
  norm_num [is_interior, annulus.ctor, quad.ctor, annulus.is_interior]

/-- C3, amended. Over the reals, with `std::sqrt` the real square root: for every quad,
`is_interior` at the centre's plane coordinates `(0.5, 0.5)` returns true; for every
ellipse, `is_interior` at `(0, 0)` returns true; for an annulus, `is_interior` at `(0, 0)`
returns true exactly when `inner <= 0`; and for each of the three shapes `is_interior(a, b)`
returns false whenever `a > 1`, `a < -1`, `b > 1` or `b < -1`. -/
theorem is_interior_center_and_far_outside (delta : ℝ) (Q : point3 ℝ) (u v : vec3 ℝ)
    (inner : ℝ) (m : material) (rec : hit_record ℝ) (a b : ℝ) :
    (is_interior Real.sqrt (quad.ctor Real.sqrt delta Q u v m) (1 / 2) (1 / 2) rec).1 = true ∧
    (is_interior Real.sqrt (ellipse.ctor Real.sqrt delta Q u v m) 0 0 rec).1 = true ∧
    ((is_interior Real.sqrt (annulus.ctor Real.sqrt delta Q u v inner m) 0 0 rec).1 = true
      ↔ inner ≤ 0) ∧
    ((a > 1 ∨ a < -1 ∨ b > 1 ∨ b < -1) →
      (is_interior Real.sqrt (quad.ctor Real.sqrt delta Q u v m) a b rec).1 = false ∧
      (is_interior Real.sqrt (ellipse.ctor Real.sqrt delta Q u v m) a b rec).1 = false ∧
      (is_interior Real.sqrt (annulus.ctor Real.sqrt delta Q u v inner m) a b rec).1
        = false) := by
  have eq : ∀ x y : ℝ, is_interior Real.sqrt (quad.ctor Real.sqrt delta Q u v m) x y rec
      = quad.is_interior x y rec := fun _ _ => rfl
  have ee : ∀ x y : ℝ, is_interior Real.sqrt (ellipse.ctor Real.sqrt delta Q u v m) x y rec
      = ellipse.is_interior x y rec := fun _ _ => rfl
  have ea : ∀ x y : ℝ,
      is_interior Real.sqrt (annulus.ctor Real.sqrt delta Q u v inner m) x y rec
      = annulus.is_interior Real.sqrt inner x y rec := fun _ _ => rfl
  refine ⟨?_, ?_, ?_, ?_⟩
  · rw [eq, quad_is_interior_eq, if_pos (by norm_num)]
  · rw [ee, ellipse_is_interior_eq, if_pos (by norm_num)]
  · rw [ea, annulus_is_interior_eq]
    simp only [mul_zero, add_zero, Real.sqrt_zero]
    by_cases h : inner ≤ 0
    · rw [if_pos ⟨h, zero_le_one⟩]
      exact ⟨fun _ => h, fun _ => rfl⟩
    · rw [if_neg (fun k => h k.1)]
      exact ⟨fun k => Bool.noConfusion k, fun k => absurd k h⟩
  · intro h
    have hsq : 1 < a * a + b * b := by
      rcases h with h | h | h | h <;> nlinarith [mul_self_nonneg a, mul_self_nonneg b]
    refine ⟨?_, ?_, ?_⟩
    · rw [eq, quad_is_interior_eq, if_neg]
      rintro ⟨h1, h2, h3, h4⟩
      rcases h with h | h | h | h <;> linarith
    · rw [ee, ellipse_is_interior_eq, if_neg (not_le.2 hsq)]
    · rw [ea, annulus_is_interior_eq, if_neg]
      rintro ⟨-, h2⟩
      exact absurd (real_sqrt_le_one _ h2) (not_le.2 hsq)

/-! ## C10 -/

/-- C10 fails on the code. For every `vec3(e0, e1, e2)`, `x()` returns `e0` and `y()` returns
`e1`, but `z()` returns `e1`, the middle component, not `e2`: for `vec3(0, 0, 1)` it returns
`0` where the third component is `1`. -/
theorem vec3_z_returns_e1 :
    (∀ (F : Type) (e0 e1 e2 : F),
      (vec3.mk e0 e1 e2).x = e0 ∧ (vec3.mk e0 e1 e2).y = e1 ∧ (vec3.mk e0 e1 e2).z = e1) ∧
    (vec3.mk (0 : ℚ) 0 1).z = 0 ∧ (vec3.mk (0 : ℚ) 0 1).z ≠ 1 := by
  refine ⟨fun _ _ _ _ => ⟨rfl, rfl, rfl⟩, rfl, ?_⟩
  show (0 : ℚ) ≠ 1
  decide

/-! ## Boxes: what the constructors of `aabb` enclose -/

/-- The interval spanned by two coordinates, padded or not, contains both. -/
theorem pad_span_bounds (delta p q : F) :
    ((if (if p ≤ q then interval.mk p q else interval.mk q p).size < delta then
          (if p ≤ q then interval.mk p q else interval.mk q p).expand delta
        else (if p ≤ q then interval.mk p q else interval.mk q p)).min ≤ p ∧
      (if (if p ≤ q then interval.mk p q else interval.mk q p).size < delta then
          (if p ≤ q then interval.mk p q else interval.mk q p).expand delta
        else (if p ≤ q then interval.mk p q else interval.mk q p)).min ≤ q) ∧
    (p ≤ (if (if p ≤ q then interval.mk p q else interval.mk q p).size < delta then
          (if p ≤ q then interval.mk p q else interval.mk q p).expand delta
        else (if p ≤ q then interval.mk p q else interval.mk q p)).max ∧
      q ≤ (if (if p ≤ q then interval.mk p q else interval.mk q p).size < delta then
          (if p ≤ q then interval.mk p q else interval.mk q p).expand delta
        else (if p ≤ q then interval.mk p q else interval.mk q p)).max) := by
  simp only [interval.size, interval.expand]
  by_cases h : p ≤ q
  · simp only [if_pos h]
    split_ifs with k
    · refine ⟨⟨?_, ?_⟩, ?_, ?_⟩ <;> linarith
    · exact ⟨⟨le_refl _, h⟩, h, le_refl _⟩
  · simp only [if_neg h]
    have h' := le_of_lt (not_le.1 h)
    split_ifs with k
    · refine ⟨⟨?_, ?_⟩, ?_, ?_⟩ <;> linarith
    · exact ⟨⟨h', le_refl _⟩, le_refl _, h'⟩

/-- The box `aabb(a, b)` reaches, on every axis, from at most the smaller to at least the
larger coordinate of its two corners. -/
theorem of_points_bounds (delta : F) (a b : point3 F) :
    (((aabb.of_points delta a b).x.min ≤ a.e0 ∧ (aabb.of_points delta a b).x.min ≤ b.e0) ∧
      (a.e0 ≤ (aabb.of_points delta a b).x.max ∧ b.e0 ≤ (aabb.of_points delta a b).x.max)) ∧
    (((aabb.of_points delta a b).y.min ≤ a.e1 ∧ (aabb.of_points delta a b).y.min ≤ b.e1) ∧
      (a.e1 ≤ (aabb.of_points delta a b).y.max ∧ b.e1 ≤ (aabb.of_points delta a b).y.max)) ∧
    (((aabb.of_points delta a b).z.min ≤ a.e2 ∧ (aabb.of_points delta a b).z.min ≤ b.e2) ∧
      (a.e2 ≤ (aabb.of_points delta a b).z.max ∧ b.e2 ≤ (aabb.of_points delta a b).z.max)) :=
  ⟨pad_span_bounds delta a.e0 b.e0, pad_span_bounds delta a.e1 b.e1,
    pad_span_bounds delta a.e2 b.e2⟩

/-- The union of two intervals starts at or below both lower ends and stops at or above
both upper ends. -/
theorem enclose_bounds (i j : interval F) :
    ((interval.enclose i j).min ≤ i.min ∧ (interval.enclose i j).min ≤ j.min) ∧
    (i.max ≤ (interval.enclose i j).max ∧ j.max ≤ (interval.enclose i j).max) := by
  simp only [interval.enclose, ge_iff_le]
  refine ⟨⟨?_, ?_⟩, ?_, ?_⟩
  · split_ifs with h
    · exact le_refl _
    · exact le_of_lt (not_le.1 h)
  · split_ifs with h
    · exact h
    · exact le_refl _
  · split_ifs with h
    · exact le_refl _
    · exact le_of_lt (not_le.1 h)
  · split_ifs with h
    · exact h
    · exact le_refl _

/-- A bound below the four corner coordinates `q`, `q+x+y`, `q+x`, `q+y` is below every
`q + a*x + b*y` with `a`, `b` in `[0, 1]`; likewise for a bound above. -/
theorem corner_bounds (lo hi q x y a b : F) (ha0 : 0 ≤ a) (ha1 : a ≤ 1) (hb0 : 0 ≤ b)
    (hb1 : b ≤ 1) (l1 : lo ≤ q) (l2 : lo ≤ q + x + y) (l3 : lo ≤ q + x) (l4 : lo ≤ q + y)
    (u1 : q ≤ hi) (u2 : q + x + y ≤ hi) (u3 : q + x ≤ hi) (u4 : q + y ≤ hi) :
    lo ≤ q + a * x + b * y ∧ q + a * x + b * y ≤ hi := by
  have hax : (0 ≤ x → 0 ≤ a * x ∧ a * x ≤ x) ∧ (x ≤ 0 → x ≤ a * x ∧ a * x ≤ 0) :=
    ⟨fun hx => ⟨mul_nonneg ha0 hx, by nlinarith⟩, fun hx => ⟨by nlinarith, by nlinarith⟩⟩
  have hby : (0 ≤ y → 0 ≤ b * y ∧ b * y ≤ y) ∧ (y ≤ 0 → y ≤ b * y ∧ b * y ≤ 0) :=
    ⟨fun hy => ⟨mul_nonneg hb0 hy, by nlinarith⟩, fun hy => ⟨by nlinarith, by nlinarith⟩⟩
  rcases le_total 0 x with hx | hx <;> rcases le_total 0 y with hy | hy
  · obtain ⟨p1, p2⟩ := hax.1 hx
    obtain ⟨p3, p4⟩ := hby.1 hy
    constructor <;> linarith
  · obtain ⟨p1, p2⟩ := hax.1 hx
    obtain ⟨p3, p4⟩ := hby.2 hy
    constructor <;> linarith
  · obtain ⟨p1, p2⟩ := hax.2 hx
    obtain ⟨p3, p4⟩ := hby.1 hy
    constructor <;> linarith
  · obtain ⟨p1, p2⟩ := hax.2 hx
    obtain ⟨p3, p4⟩ := hby.2 hy
    constructor <;> linarith

/-- The box that `quad::set_bounding_box` stores encloses `Q + a*u + b*v` for all `a`, `b`
in `[0, 1]`. -/
theorem quad_box_encloses (delta : F) (Q : point3 F) (u v : vec3 F) (a b : F)
    (ha0 : 0 ≤ a) (ha1 : a ≤ 1) (hb0 : 0 ≤ b) (hb1 : b ≤ 1) :
    (quad.set_bounding_box delta Q u v).encloses (Q + a * u + b * v) = true := by
  obtain ⟨⟨⟨x1, x2⟩, x3, x4⟩, ⟨⟨y1, y2⟩, y3, y4⟩, ⟨z1, z2⟩, z3, z4⟩ :=
    of_points_bounds delta Q (Q + u + v)
  obtain ⟨⟨⟨x5, x6⟩, x7, x8⟩, ⟨⟨y5, y6⟩, y7, y8⟩, ⟨z5, z6⟩, z7, z8⟩ :=
    of_points_bounds delta (Q + u) (Q + v)
  obtain ⟨⟨ex1, ex2⟩, ex3, ex4⟩ := enclose_bounds (aabb.of_points delta Q (Q + u + v)).x
    (aabb.of_points delta (Q + u) (Q + v)).x
  obtain ⟨⟨ey1, ey2⟩, ey3, ey4⟩ := enclose_bounds (aabb.of_points delta Q (Q + u + v)).y
    (aabb.of_points delta (Q + u) (Q + v)).y
  obtain ⟨⟨ez1, ez2⟩, ez3, ez4⟩ := enclose_bounds (aabb.of_points delta Q (Q + u + v)).z
    (aabb.of_points delta (Q + u) (Q + v)).z
  simp only [vec3.add_e0] at x2 x4 x5 x6 x7 x8
  simp only [vec3.add_e1] at y2 y4 y5 y6 y7 y8
  simp only [vec3.add_e2] at z2 z4 z5 z6 z7 z8
  have hx := corner_bounds _ _ Q.e0 u.e0 v.e0 a b ha0 ha1 hb0 hb1 (le_trans ex1 x1)
    (le_trans ex1 x2) (le_trans ex2 x5) (le_trans ex2 x6) (le_trans x3 ex3) (le_trans x4 ex3)
    (le_trans x7 ex4) (le_trans x8 ex4)
  have hy := corner_bounds _ _ Q.e1 u.e1 v.e1 a b ha0 ha1 hb0 hb1 (le_trans ey1 y1)
    (le_trans ey1 y2) (le_trans ey2 y5) (le_trans ey2 y6) (le_trans y3 ey3) (le_trans y4 ey3)
    (le_trans y7 ey4) (le_trans y8 ey4)
  have hz := corner_bounds _ _ Q.e2 u.e2 v.e2 a b ha0 ha1 hb0 hb1 (le_trans ez1 z1)
    (le_trans ez1 z2) (le_trans ez2 z5) (le_trans ez2 z6) (le_trans z3 ez3) (le_trans z4 ez3)
    (le_trans z7 ez4) (le_trans z8 ez4)
  simp only [aabb.encloses, interval.contains, quad.set_bounding_box, aabb.of_boxes,
    Bool.and_eq_true, decide_eq_true_eq, vec3.add_e0, vec3.add_e1, vec3.add_e2, vec3.smul_e0,
    vec3.smul_e1, vec3.smul_e2]
  exact ⟨⟨hx, hy⟩, hz⟩

/-! ## C4 -/

/-- C4. For every quad, and for every tri (which inherits the quad's box), built from `Q`,
`u`, `v`: `bounding_box()` is the union of the box spanned by `Q` and `Q+u+v` with the box
spanned by `Q+u` and `Q+v`; it contains every point `Q + a*u + b*v` with `0 <= a <= 1` and
`0 <= b <= 1`; hence it contains every point the quad's interior test accepts, and the
triangle's box contains every point of the triangle (`a >= 0`, `b >= 0`, `a + b <= 1`),
which are the points the triangle's interior test accepts. -/
theorem quad_tri_bounding_box {F : Type} [LinearOrderedField F] (sqrt : F → F) (delta : F)
    (Q : point3 F) (u v : vec3 F) (m : material) (a b : F) (rec : hit_record F) :
    ((quad.ctor sqrt delta Q u v m).bounding_box
        = aabb.of_boxes (aabb.of_points delta Q (Q + u + v))
            (aabb.of_points delta (Q + u) (Q + v)) ∧
      (tri.ctor sqrt delta Q u v m).bounding_box
        = aabb.of_boxes (aabb.of_points delta Q (Q + u + v))
            (aabb.of_points delta (Q + u) (Q + v))) ∧
    (((0 ≤ a ∧ a ≤ 1) ∧ (0 ≤ b ∧ b ≤ 1) →
        (quad.ctor sqrt delta Q u v m).bounding_box.encloses (Q + a * u + b * v) = true ∧
        (tri.ctor sqrt delta Q u v m).bounding_box.encloses (Q + a * u + b * v) = true) ∧
      ((is_interior sqrt (quad.ctor sqrt delta Q u v m) a b rec).1 = true →
        (quad.ctor sqrt delta Q u v m).bounding_box.encloses (Q + a * u + b * v) = true) ∧
      (a ≥ 0 ∧ b ≥ 0 ∧ a + b ≤ 1 →
        (tri.ctor sqrt delta Q u v m).bounding_box.encloses (Q + a * u + b * v) = true) ∧
      ((is_interior sqrt (tri.ctor sqrt delta Q u v m) a b rec).1 = true →
        (tri.ctor sqrt delta Q u v m).bounding_box.encloses (Q + a * u + b * v) = true)) := by
  have hq : (quad.ctor sqrt delta Q u v m).bounding_box = quad.set_bounding_box delta Q u v :=
    rfl
  have ht : (tri.ctor sqrt delta Q u v m).bounding_box = quad.set_bounding_box delta Q u v :=
    rfl
  have eq : is_interior sqrt (quad.ctor sqrt delta Q u v m) a b rec
      = quad.is_interior a b rec := rfl
  have et : is_interior sqrt (tri.ctor sqrt delta Q u v m) a b rec
      = tri.is_interior a b rec := rfl
  refine ⟨⟨rfl, rfl⟩, ?_, ?_, ?_, ?_⟩
  · rintro ⟨⟨ha0, ha1⟩, hb0, hb1⟩
    rw [hq, ht]
    exact ⟨quad_box_encloses delta Q u v a b ha0 ha1 hb0 hb1,
      quad_box_encloses delta Q u v a b ha0 ha1 hb0 hb1⟩
  · rw [eq, quad_is_interior_eq, hq]
    intro h
    split_ifs at h with k
    exact quad_box_encloses delta Q u v a b k.1 k.2.1 k.2.2.1 k.2.2.2
  · rintro ⟨ha0, hb0, hab⟩
    rw [ht]
    exact quad_box_encloses delta Q u v a b ha0 (by linarith) hb0 (by linarith)
  · rw [et, tri_is_interior_eq, ht]
    intro h
    split_ifs at h with k
    exact quad_box_encloses delta Q u v a b k.1 (by linarith [k.2.1, k.2.2]) k.2.1
      (by linarith [k.1, k.2.2])

/-- The back quad of `quads()`: the point `Q + (1/4) u + (3/4) v` with coordinates in
`[0, 1]` lies in the bounding box of the quad and of the tri on the same `Q`, `u`, `v`. -/
theorem quad_tri_bounding_box_witness :
    (((0 : ℝ) ≤ 1 / 4 ∧ (1 / 4 : ℝ) ≤ 1) ∧ ((0 : ℝ) ≤ 3 / 4 ∧ (3 / 4 : ℝ) ≤ 1)) ∧
    ((quad.ctor Real.sqrt (1 / 10000) ⟨-2, -2, 0⟩ ⟨4, 0, 0⟩ ⟨0, 4, 0⟩ 1).bounding_box.encloses
        ((⟨-2, -2, 0⟩ : point3 ℝ) + (1 / 4 : ℝ) * (⟨4, 0, 0⟩ : vec3 ℝ)
          + (3 / 4 : ℝ) * (⟨0, 4, 0⟩ : vec3 ℝ)) = true ∧
      (tri.ctor Real.sqrt (1 / 10000) ⟨-2, -2, 0⟩ ⟨4, 0, 0⟩ ⟨0, 4, 0⟩ 1).bounding_box.encloses
        ((⟨-2, -2, 0⟩ : point3 ℝ) + (1 / 4 : ℝ) * (⟨4, 0, 0⟩ : vec3 ℝ)
          + (3 / 4 : ℝ) * (⟨0, 4, 0⟩ : vec3 ℝ)) = true) :=
  ⟨by norm_num,
    (quad_tri_bounding_box Real.sqrt (1 / 10000) ⟨-2, -2, 0⟩ ⟨4, 0, 0⟩ ⟨0, 4, 0⟩ 1 (1 / 4) (3 / 4)
      (hit_record.blank ℝ)).2.1 (by norm_num)⟩

/-! ## C5 and C1: the box of an ellipse and of an annulus -/

/-- Whatever the arguments, the box an ellipse or an annulus holds after construction is the
one `quad::set_bounding_box` computes: the constructor of the base class makes the only call
of `set_bounding_box()`, and the overrides of `ellipse` and `annulus` are never run. -/
theorem ellipse_annulus_bbox_eq_quad_bbox {F : Type} [LinearOrderedField F] (sqrt : F → F)
    (delta : F) (Q : point3 F) (u v : vec3 F) (inner : F) (m : material) :
    (ellipse.ctor sqrt delta Q u v m).bounding_box = quad.set_bounding_box delta Q u v ∧
    (annulus.ctor sqrt delta Q u v inner m).bounding_box = quad.set_bounding_box delta Q u v :=
  ⟨rfl, rfl⟩

/-- C5 fails on the code. For the ellipse `ellipse(point3(0, 0, 0), vec3(2, 0, 0), vec3(0, 2, 0),
back_green)` of `ellipses()` and the annulus on the same `Q`, `u`, `v` of `annuli()`,
`bounding_box()` is the quad's box, `[0,2] x [0,2]` (and the padded zero-thickness axis),
where the box with corners `Q-u-v` and `Q+u+v` that the overrides compute is
`[-2,2] x [-2,2]`. -/
theorem ellipse_annulus_bbox_is_not_centered :
    (ellipse.ctor Real.sqrt (1 / 10000) ⟨0, 0, 0⟩ ⟨2, 0, 0⟩ ⟨0, 2, 0⟩ 1).bounding_box
      = ⟨⟨0, 2⟩, ⟨0, 2⟩, ⟨-(1 / 20000), 1 / 20000⟩⟩ ∧
    (annulus.ctor Real.sqrt (1 / 10000) ⟨0, 0, 0⟩ ⟨2, 0, 0⟩ ⟨0, 2, 0⟩ (1 / 5) 1).bounding_box
      = ⟨⟨0, 2⟩, ⟨0, 2⟩, ⟨-(1 / 20000), 1 / 20000⟩⟩ ∧
    ellipse.set_bounding_box (1 / 10000 : ℝ) ⟨0, 0, 0⟩ ⟨2, 0, 0⟩ ⟨0, 2, 0⟩
      = ⟨⟨-2, 2⟩, ⟨-2, 2⟩, ⟨-(1 / 20000), 1 / 20000⟩⟩ ∧
    annulus.set_bounding_box (1 / 10000 : ℝ) ⟨0, 0, 0⟩ ⟨2, 0, 0⟩ ⟨0, 2, 0⟩
      = ⟨⟨-2, 2⟩, ⟨-2, 2⟩, ⟨-(1 / 20000), 1 / 20000⟩⟩ := by
  refine ⟨?_, ?_, ?_, ?_⟩ <;>
  norm_num [ellipse.ctor, annulus.ctor, quad.ctor, quad.bounding_box, set_bounding_box,
    quad.set_bounding_box, ellipse.set_bounding_box, annulus.set_bounding_box,
    aabb.of_points, aabb.of_boxes, aabb.pad_to_minimums, interval.enclose, interval.size,
    interval.expand]

/-- C1 fails on the code. For the ellipse `ellipse(point3(0, 0, 0), vec3(2, 0, 0),
vec3(0, 2, 0), back_green)` of `ellipses()` and the annulus
`annulus(point3(0, 0, 0), vec3(2, 0, 0), vec3(0, 2, 0), 0.2, back_green)` of `annuli()`, the
interior test accepts the plane coordinates `(-1, 0)`, and the point `Q - u = (-2, 0, 0)`
they stand for is outside the box `bounding_box()` returns. -/
theorem ellipse_annulus_bbox_misses_point :
    ((is_interior Real.sqrt
          (ellipse.ctor Real.sqrt (1 / 10000) ⟨0, 0, 0⟩ ⟨2, 0, 0⟩ ⟨0, 2, 0⟩ 1)
          (-1) 0 (hit_record.blank ℝ)).1 = true ∧
      (ellipse.ctor Real.sqrt (1 / 10000) ⟨0, 0, 0⟩ ⟨2, 0, 0⟩ ⟨0, 2, 0⟩ 1).bounding_box.encloses
          ((⟨0, 0, 0⟩ : point3 ℝ) + (-1 : ℝ) * (⟨2, 0, 0⟩ : vec3 ℝ)
            + (0 : ℝ) * (⟨0, 2, 0⟩ : vec3 ℝ)) = false) ∧
    ((is_interior Real.sqrt
          (annulus.ctor Real.sqrt (1 / 10000) ⟨0, 0, 0⟩ ⟨2, 0, 0⟩ ⟨0, 2, 0⟩ (1 / 5) 1)
          (-1) 0 (hit_record.blank ℝ)).1 = true ∧
      (annulus.ctor Real.sqrt (1 / 10000) ⟨0, 0, 0⟩ ⟨2, 0, 0⟩ ⟨0, 2, 0⟩ (1 / 5)
          1).bounding_box.encloses
          ((⟨0, 0, 0⟩ : point3 ℝ) + (-1 : ℝ) * (⟨2, 0, 0⟩ : vec3 ℝ)
            + (0 : ℝ) * (⟨0, 2, 0⟩ : vec3 ℝ)) = false) := by
  refine ⟨⟨?_, ?_⟩, ?_, ?_⟩ <;>
  norm_num [is_interior, ellipse.is_interior, annulus.is_interior, ellipse.ctor, annulus.ctor,
    quad.ctor, quad.bounding_box, set_bounding_box, quad.set_bounding_box, aabb.encloses,
    interval.contains, aabb.of_points, aabb.of_boxes, aabb.pad_to_minimums, interval.enclose,
    interval.size, interval.expand]

/-- A remark on the overrides themselves: the box with corners `Q-u-v` and `Q+u+v` is not a
bound of the ellipse either when `u` and `v` are not along coordinate axes. For `Q = 0`,
`u = (1, 1, 0)`, `v = (-1, 1, 0)` that box has no extent along the first axis, and the point
`Q + u` of the ellipse (plane coordinates `(1, 0)`) is outside it. -/
theorem override_box_misses_point :
    (ellipse.is_interior (1 : ℝ) 0 (hit_record.blank ℝ)).1 = true ∧
    (ellipse.set_bounding_box (1 / 10000 : ℝ) ⟨0, 0, 0⟩ ⟨1, 1, 0⟩ ⟨-1, 1, 0⟩).encloses
        ((⟨0, 0, 0⟩ : point3 ℝ) + (1 : ℝ) * (⟨1, 1, 0⟩ : vec3 ℝ)
          + (0 : ℝ) * (⟨-1, 1, 0⟩ : vec3 ℝ)) = false := by
  constructor <;>
  norm_num [ellipse.is_interior, ellipse.set_bounding_box, aabb.encloses, interval.contains,
    aabb.of_points, aabb.pad_to_minimums, interval.size, interval.expand]

end RTWeekend
